import Mathlib

/-!
Verification of `torch_points3d/modules/TorchSparse/modules.py`.

The module defines four `torch.nn.Module` classes: `ResBlock`,
`BottleneckBlock`, `ResNetDown` and `ResNetUp`.  Each constructor only
assembles a sequence of pre-existing layers (sparse convolution, batch
normalization, ReLU), and each `forward` evaluates those sequences and
sums or concatenates the results.

We embed this shallowly:

* a layer is a symbolic description (`Layer`) recording exactly which
  constructor the Python code called and with which arguments;
* a `Seq` (the repository's sequential container) is a `List Layer`;
* a block module is the record of attributes its `__init__` sets
  (`BlockMod`, `ResNetDownMod`);
* tensors are abstract: `forward` is evaluated against an environment
  `Env T` giving the action of a single layer, of `+=` and of `TS.cat`,
  so theorems about `forward` hold for every interpretation of the
  underlying sparse-tensor library;
* Python exceptions raised during `__init__` are modelled with
  `Except PyError`.
-/

/-- Which convolution constructor a layer was built from: `TS.nn.Conv3d`,
its transposed variant (`ResNetUp.CONVOLUTION`), or an arbitrary
`convolution` callable passed by the caller. -/
inductive ConvCtor where
  | conv3d
  | conv3dTranspose
  | custom (id : Nat)
deriving DecidableEq, Repr

/-- A single layer as constructed by the Python code.  A convolution
records its constructor and the arguments `in_channels`, `out_channels`,
`kernel_size`, `stride`, `dilation` (defaults `stride = 1`,
`dilation = 1` are written out explicitly). -/
inductive Layer where
  | conv (ctor : ConvCtor) (in_channels out_channels kernel_size stride dilation : Nat)
  | batchNorm (nc : Nat)
  | relu (inplace : Bool)
deriving DecidableEq, Repr

/-- The attributes set by `ResBlock.__init__` / `BottleneckBlock.__init__`:
the main sequential stack `self.block` and the optional projection
shortcut `self.downsample`. -/
structure BlockMod where
  block : List Layer
  downsample : Option (List Layer)
deriving DecidableEq, Repr

/-- The constructor `ResBlock.__init__(input_nc, output_nc, convolution)`. -/
def ResBlock.init (input_nc output_nc : Nat) (convolution : ConvCtor) : BlockMod where
  block :=
    [ Layer.conv convolution input_nc output_nc 3 1 1,
      Layer.batchNorm output_nc,
      Layer.relu true,
      Layer.conv convolution output_nc output_nc 3 1 1,
      Layer.batchNorm output_nc,
      Layer.relu true ]
  downsample :=
    if input_nc ≠ output_nc then
      some [ Layer.conv ConvCtor.conv3d input_nc output_nc 1 1 1,
             Layer.batchNorm output_nc ]
    else
      none

/-- The constructor `BottleneckBlock.__init__(input_nc, output_nc, convolution, reduction)`;
the Python default is `reduction = 4`.  `output_nc // reduction` is
natural floor division, as in Python for non-negative operands. -/
def BottleneckBlock.init (input_nc output_nc : Nat) (convolution : ConvCtor)
    (reduction : Nat) : BlockMod where
  block :=
    [ Layer.conv ConvCtor.conv3d input_nc (output_nc / reduction) 1 1 1,
      Layer.batchNorm (output_nc / reduction),
      Layer.relu true,
      Layer.conv convolution (output_nc / reduction) (output_nc / reduction) 3 1 1,
      Layer.batchNorm (output_nc / reduction),
      Layer.relu true,
      Layer.conv ConvCtor.conv3d (output_nc / reduction) output_nc 1 1 1,
      Layer.batchNorm output_nc,
      Layer.relu true ]
  downsample :=
    if input_nc ≠ output_nc then
      some [ Layer.conv convolution input_nc output_nc 1 1 1,
             Layer.batchNorm output_nc ]
    else
      none

/-- Interpretation of the external sparse-tensor library: the action of a
single layer on a tensor, of the in-place sum `out += y`, and of
`TS.cat`. -/
structure Env (T : Type) where
  evalLayer : Layer → T → T
  add : T → T → T
  cat : T → T → T

/-- Running a `Seq` (sequential container): apply each layer in order. -/
def evalSeq {T : Type} (env : Env T) (layers : List Layer) (x : T) : T :=
  layers.foldl (fun t l => env.evalLayer l t) x

/-- The method `ResBlock.forward(x)`: `out = self.block(x)`, then
`out += self.downsample(x)` if `self.downsample` is truthy (a `Seq` is
truthy iff non-empty) else `out += x`. -/
def ResBlock.forward {T : Type} (env : Env T) (m : BlockMod) (x : T) : T :=
  let out := evalSeq env m.block x
  match m.downsample with
  | some d => if d.isEmpty then env.add out x else env.add out (evalSeq env d x)
  | none => env.add out x

/-- The method `BottleneckBlock.forward(x)`: textually identical to
`ResBlock.forward`. -/
def BottleneckBlock.forward {T : Type} (env : Env T) (m : BlockMod) (x : T) : T :=
  let out := evalSeq env m.block x
  match m.downsample with
  | some d => if d.isEmpty then env.add out x else env.add out (evalSeq env d x)
  | none => env.add out x

/-- Python exceptions that `ResNetDown.__init__` can raise. -/
inductive PyError where
  | attributeError
  | indexError
  | typeError
deriving DecidableEq, Repr

/-- Indexing `xs[i]` on a Python list (non-negative index): `IndexError` when out
of range. -/
def listIndex {α : Type} (xs : List α) (i : Nat) : Except PyError α :=
  match xs.get? i with
  | some v => Except.ok v
  | none => Except.error PyError.indexError

/-- The value `getattr(_res_blocks, block)` can produce: one of the two
block classes, or some other attribute of the module (not callable as a
block). -/
inductive BlockClass where
  | resBlockC
  | bottleneckBlockC
  | nonBlockAttr
deriving DecidableEq, Repr

/-- The top-level names bound in the module `_res_blocks` (its imports,
classes and implicit module attributes). -/
def moduleAttrs : List String :=
  [ "torch", "TS", "torchsparse", "sys", "partial", "Seq", "Identity",
    "ResBlock", "BottleneckBlock", "_res_blocks", "ResNetDown", "ResNetUp",
    "__name__", "__doc__", "__package__", "__loader__", "__spec__",
    "__file__", "__cached__", "__builtins__" ]

/-- The lookup `getattr(_res_blocks, name)`: `AttributeError` iff `name` is not an
attribute of the module. -/
def getattrBlocks (name : String) : Except PyError BlockClass :=
  if name = "ResBlock" then Except.ok BlockClass.resBlockC
  else if name = "BottleneckBlock" then Except.ok BlockClass.bottleneckBlockC
  else if name ∈ moduleAttrs then Except.ok BlockClass.nonBlockAttr
  else Except.error PyError.attributeError

/-- Calling `block(input_nc, output_nc, convolution)` inside the loop of
`ResNetDown.__init__`.  `reduction` keeps its default `4` for
`BottleneckBlock`.  Calling a module attribute that is not a block class
with these three arguments raises a `TypeError`. -/
def applyBlock (bc : BlockClass) (input_nc output_nc : Nat) (convolution : ConvCtor) :
    Except PyError BlockMod :=
  match bc with
  | BlockClass.resBlockC => Except.ok (ResBlock.init input_nc output_nc convolution)
  | BlockClass.bottleneckBlockC =>
      Except.ok (BottleneckBlock.init input_nc output_nc convolution 4)
  | BlockClass.nonBlockAttr => Except.error PyError.typeError

/-- The loop `for _ in range(N): self.blocks.append(block(conv1_output,
down_conv_nn[1], self.CONVOLUTION)); conv1_output = down_conv_nn[1]`. -/
def buildBlocks (bc : BlockClass) (CONVOLUTION : ConvCtor) (down_conv_nn : List Nat) :
    Nat → Nat → Except PyError (List BlockMod)
  | _, 0 => Except.ok []
  | conv1_output, n + 1 =>
    match listIndex down_conv_nn 1 with
    | Except.error e => Except.error e
    | Except.ok nn1 =>
      match applyBlock bc conv1_output nn1 CONVOLUTION with
      | Except.error e => Except.error e
      | Except.ok b =>
        match buildBlocks bc CONVOLUTION down_conv_nn nn1 n with
        | Except.error e => Except.error e
        | Except.ok bs => Except.ok (b :: bs)

/-- The attributes set by `ResNetDown.__init__`: `self.conv_in` and
`self.blocks` (`None` when `N <= 0`). -/
structure ResNetDownMod where
  conv_in : List Layer
  blocks : Option (List BlockMod)
deriving DecidableEq, Repr

/-- The constructor `ResNetDown.__init__(down_conv_nn, kernel_size, dilation, stride, N,
block)` with the class attribute `CONVOLUTION` abstracted (Python
defaults: `down_conv_nn=[]`, `kernel_size=2`, `dilation=1`, `stride=2`,
`N=1`, `block="ResBlock"`).  Steps in source order: `getattr`, the
stride-dependent choice of `conv1_output` (indexing `down_conv_nn`),
building `self.conv_in`, then the block loop when `N > 0`. -/
def ResNetDown.initWith (CONVOLUTION : ConvCtor) (down_conv_nn : List Nat)
    (kernel_size dilation stride : Nat) (N : Int) (block : String) :
    Except PyError ResNetDownMod :=
  match getattrBlocks block with
  | Except.error e => Except.error e
  | Except.ok bc =>
    match (if stride > 1 then listIndex down_conv_nn 0 else listIndex down_conv_nn 1) with
    | Except.error e => Except.error e
    | Except.ok conv1_output =>
      match listIndex down_conv_nn 0 with
      | Except.error e => Except.error e
      | Except.ok nn0 =>
        let conv_in : List Layer :=
          [ Layer.conv CONVOLUTION nn0 conv1_output kernel_size stride dilation,
            Layer.batchNorm conv1_output,
            Layer.relu true ]
        if 0 < N then
          match buildBlocks bc CONVOLUTION down_conv_nn conv1_output N.toNat with
          | Except.error e => Except.error e
          | Except.ok bs => Except.ok ⟨conv_in, some bs⟩
        else
          Except.ok ⟨conv_in, none⟩

/-- The constructor `ResNetDown.__init__` with its class attribute
`CONVOLUTION = TS.nn.Conv3d`. -/
def ResNetDown.init (down_conv_nn : List Nat) (kernel_size dilation stride : Nat)
    (N : Int) (block : String) : Except PyError ResNetDownMod :=
  ResNetDown.initWith ConvCtor.conv3d down_conv_nn kernel_size dilation stride N block

/-- The constructor `ResNetUp.__init__`: delegates to `ResNetDown.__init__` with
`CONVOLUTION = partial(TS.nn.Conv3d, transpose=True)` and
`down_conv_nn = up_conv_nn`. -/
def ResNetUp.init (up_conv_nn : List Nat) (kernel_size dilation stride : Nat)
    (N : Int) (block : String) : Except PyError ResNetDownMod :=
  ResNetDown.initWith ConvCtor.conv3dTranspose up_conv_nn kernel_size dilation stride N block

/-- The method `ResNetDown.forward(x)`: `out = self.conv_in(x)`, then
`out = self.blocks(out)` when `self.blocks` is truthy (non-empty);
running the `Seq` of blocks applies each contained block's `forward` in
order (both block classes share the same `forward` body). -/
def ResNetDown.forward {T : Type} (env : Env T) (m : ResNetDownMod) (x : T) : T :=
  let out := evalSeq env m.conv_in x
  match m.blocks with
  | some bs => if bs.isEmpty then out else bs.foldl (fun t b => ResBlock.forward env b t) out
  | none => out

/-- The method `ResNetUp.forward(x, skip)`: concatenate with the skip connection
when `skip is not None`, then run `ResNetDown.forward`. -/
def ResNetUp.forward {T : Type} (env : Env T) (m : ResNetDownMod) (x : T)
    (skip : Option T) : T :=
  let inp :=
    match skip with
    | some s => env.cat x s
    | none => x
  ResNetDown.forward env m inp

/-- A free term model of tensors: enough structure to evaluate `forward`
symbolically on concrete modules. -/
inductive TTerm where
  | input (i : Nat)
  | app (l : Layer) (t : TTerm)
  | add (a b : TTerm)
  | cat (a b : TTerm)
deriving DecidableEq, Repr

/-- The trace environment: layers, `+=` and `TS.cat` build syntax
trees. -/
def traceEnv : Env TTerm :=
  { evalLayer := TTerm.app, add := TTerm.add, cat := TTerm.cat }

/-- Claim C1: for every input `x`, `ResBlock.forward(x)` and
`BottleneckBlock.forward(x)` return `block(x) + s(x)`, where `block` is
the module's sequential stack and `s` is the downsample projection when
`input_nc != output_nc` and the identity otherwise. -/
theorem forward_is_block_plus_shortcut (T : Type) (env : Env T)
    (input_nc output_nc : Nat) (convolution : ConvCtor) (reduction : Nat) (x : T) :
    ResBlock.forward env (ResBlock.init input_nc output_nc convolution) x =
      env.add (evalSeq env (ResBlock.init input_nc output_nc convolution).block x)
        (if input_nc = output_nc then x
         else evalSeq env ((ResBlock.init input_nc output_nc convolution).downsample.getD []) x) ∧
    BottleneckBlock.forward env (BottleneckBlock.init input_nc output_nc convolution reduction) x =
      env.add
        (evalSeq env (BottleneckBlock.init input_nc output_nc convolution reduction).block x)
        (if input_nc = output_nc then x
         else evalSeq env
           ((BottleneckBlock.init input_nc output_nc convolution reduction).downsample.getD [])
           x) := by
  constructor <;> by_cases h : input_nc = output_nc <;>
    simp [ResBlock.forward, ResBlock.init, BottleneckBlock.forward, BottleneckBlock.init, h]

/-- Claim C2: in both `ResBlock.__init__` and `BottleneckBlock.__init__`
the projection shortcut (kernel-size-1, stride-1 convolution from
`input_nc` to `output_nc` followed by batch normalization) is built iff
`input_nc != output_nc`; otherwise `downsample` is `None` with no
projection layers. -/
theorem downsample_iff_channel_mismatch (input_nc output_nc : Nat)
    (convolution : ConvCtor) (reduction : Nat) :
    (ResBlock.init input_nc output_nc convolution).downsample =
      (if input_nc = output_nc then none
       else some [ Layer.conv ConvCtor.conv3d input_nc output_nc 1 1 1,
                   Layer.batchNorm output_nc ]) ∧
    (BottleneckBlock.init input_nc output_nc convolution reduction).downsample =
      (if input_nc = output_nc then none
       else some [ Layer.conv convolution input_nc output_nc 1 1 1,
                   Layer.batchNorm output_nc ]) := by
  constructor <;> by_cases h : input_nc = output_nc <;>
    simp [ResBlock.init, BottleneckBlock.init, h]

/-- Claim C3: `ResBlock.__init__(input_nc, output_nc, convolution)` builds
its main branch as exactly `convolution(input_nc, output_nc, 3, 1)`,
`BatchNorm(output_nc)`, `ReLU`, `convolution(output_nc, output_nc, 3, 1)`,
`BatchNorm(output_nc)`, `ReLU`, in this order. -/
theorem resblock_main_branch (input_nc output_nc : Nat) (convolution : ConvCtor) :
    (ResBlock.init input_nc output_nc convolution).block =
      [ Layer.conv convolution input_nc output_nc 3 1 1,
        Layer.batchNorm output_nc,
        Layer.relu true,
        Layer.conv convolution output_nc output_nc 3 1 1,
        Layer.batchNorm output_nc,
        Layer.relu true ] := rfl

/-- Claim C4: `BottleneckBlock.__init__` builds its main branch as exactly
a kernel-size-1 convolution `input_nc → output_nc / reduction`, BatchNorm,
ReLU, a kernel-size-3 convolution keeping `output_nc / reduction`,
BatchNorm, ReLU, a kernel-size-1 convolution
`output_nc / reduction → output_nc`, BatchNorm, ReLU, with the
intermediate channel count the integer floor division
`output_nc // reduction`. -/
theorem bottleneck_main_branch (input_nc output_nc : Nat) (convolution : ConvCtor)
    (reduction : Nat) (_hred : 0 < reduction) :
    (BottleneckBlock.init input_nc output_nc convolution reduction).block =
      [ Layer.conv ConvCtor.conv3d input_nc (output_nc / reduction) 1 1 1,
        Layer.batchNorm (output_nc / reduction),
        Layer.relu true,
        Layer.conv convolution (output_nc / reduction) (output_nc / reduction) 3 1 1,
        Layer.batchNorm (output_nc / reduction),
        Layer.relu true,
        Layer.conv ConvCtor.conv3d (output_nc / reduction) output_nc 1 1 1,
        Layer.batchNorm output_nc,
        Layer.relu true ] := rfl

/-- Witness for C4 at `input_nc = 2`, `output_nc = 8`, `reduction = 4`:
the intermediate channel count is `8 / 4 = 2`. -/
theorem bottleneck_main_branch_witness :
    (BottleneckBlock.init 2 8 (ConvCtor.custom 0) 4).block =
      [ Layer.conv ConvCtor.conv3d 2 2 1 1 1,
        Layer.batchNorm 2,
        Layer.relu true,
        Layer.conv (ConvCtor.custom 0) 2 2 3 1 1,
        Layer.batchNorm 2,
        Layer.relu true,
        Layer.conv ConvCtor.conv3d 2 8 1 1 1,
        Layer.batchNorm 8,
        Layer.relu true ] :=
  bottleneck_main_branch 2 8 (ConvCtor.custom 0) 4 (by decide)

/-- Claim C7: the `ResBlock` projection shortcut always uses
`TS.nn.Conv3d` regardless of the `convolution` argument, while the
`BottleneckBlock` projection uses the `convolution` argument itself; in
both cases the projection is exactly the convolution followed by
`BatchNorm(output_nc)`, with no activation. -/
theorem projection_ctors (input_nc output_nc : Nat) (convolution : ConvCtor)
    (reduction : Nat) (h : input_nc ≠ output_nc) :
    (ResBlock.init input_nc output_nc convolution).downsample =
      some [ Layer.conv ConvCtor.conv3d input_nc output_nc 1 1 1,
             Layer.batchNorm output_nc ] ∧
    (BottleneckBlock.init input_nc output_nc convolution reduction).downsample =
      some [ Layer.conv convolution input_nc output_nc 1 1 1,
             Layer.batchNorm output_nc ] := by
  constructor <;> simp [ResBlock.init, BottleneckBlock.init, h]

/-- Witness for C7 at `input_nc = 2`, `output_nc = 3` with a custom
`convolution`: the `ResBlock` shortcut still uses `Conv3d`, the
`BottleneckBlock` shortcut uses the custom constructor. -/
theorem projection_ctors_witness :
    (ResBlock.init 2 3 (ConvCtor.custom 0)).downsample =
      some [ Layer.conv ConvCtor.conv3d 2 3 1 1 1, Layer.batchNorm 3 ] ∧
    (BottleneckBlock.init 2 3 (ConvCtor.custom 0) 4).downsample =
      some [ Layer.conv (ConvCtor.custom 0) 2 3 1 1 1, Layer.batchNorm 3 ] :=
  projection_ctors 2 3 (ConvCtor.custom 0) 4 (by decide)

/-- Claim C6: every `forward` method is deterministic: two calls with
equal inputs and equal module parameters and state (and the same
interpretation of the underlying library) produce equal outputs. -/
theorem forward_deterministic (T : Type) (env env2 : Env T) (m m2 : BlockMod)
    (r r2 : ResNetDownMod) (x x2 : T) (skip skip2 : Option T)
    (henv : env = env2) (hm : m = m2) (hr : r = r2) (hx : x = x2) (hs : skip = skip2) :
    ResBlock.forward env m x = ResBlock.forward env2 m2 x2 ∧
    BottleneckBlock.forward env m x = BottleneckBlock.forward env2 m2 x2 ∧
    ResNetDown.forward env r x = ResNetDown.forward env2 r2 x2 ∧
    ResNetUp.forward env r x skip = ResNetUp.forward env2 r2 x2 skip2 := by
  subst henv hm hr hx hs
  exact ⟨rfl, rfl, rfl, rfl⟩

/-- Witness for C6 at concrete modules and a concrete symbolic input. -/
theorem forward_deterministic_witness :
    ResBlock.forward traceEnv (ResBlock.init 2 3 ConvCtor.conv3d) (TTerm.input 0) =
      ResBlock.forward traceEnv (ResBlock.init 2 3 ConvCtor.conv3d) (TTerm.input 0) ∧
    BottleneckBlock.forward traceEnv (ResBlock.init 2 3 ConvCtor.conv3d) (TTerm.input 0) =
      BottleneckBlock.forward traceEnv (ResBlock.init 2 3 ConvCtor.conv3d) (TTerm.input 0) ∧
    ResNetDown.forward traceEnv ⟨[Layer.relu true], none⟩ (TTerm.input 0) =
      ResNetDown.forward traceEnv ⟨[Layer.relu true], none⟩ (TTerm.input 0) ∧
    ResNetUp.forward traceEnv ⟨[Layer.relu true], none⟩ (TTerm.input 0) (some (TTerm.input 1)) =
      ResNetUp.forward traceEnv ⟨[Layer.relu true], none⟩ (TTerm.input 0) (some (TTerm.input 1)) :=
  forward_deterministic TTerm traceEnv traceEnv
    (ResBlock.init 2 3 ConvCtor.conv3d) (ResBlock.init 2 3 ConvCtor.conv3d)
    ⟨[Layer.relu true], none⟩ ⟨[Layer.relu true], none⟩
    (TTerm.input 0) (TTerm.input 0) (some (TTerm.input 1)) (some (TTerm.input 1))
    rfl rfl rfl rfl rfl

/-- Channel signature read off a `Seq` whose first layer is a
convolution: its `(in_channels, out_channels)`. -/
def convInSig : List Layer → Option (Nat × Nat)
  | Layer.conv _ i o _ _ _ :: _ => some (i, o)
  | _ => none

/-- The `nc` argument of the last batch-normalization layer of a `Seq`:
the channel width of its output for all stacks built here. -/
def lastNormNc (layers : List Layer) : Option Nat :=
  layers.foldl
    (fun acc l =>
      match l with
      | Layer.batchNorm nc => some nc
      | _ => acc)
    none

/-- Input channel count of a block module: the `in_channels` of the first
convolution of its main branch. -/
def BlockMod.inSig (m : BlockMod) : Option Nat :=
  match convInSig m.block with
  | some s => some s.1
  | none => none

/-- Output channel count of a block module: the width of the last batch
normalization of its main branch. -/
def BlockMod.outSig (m : BlockMod) : Option Nat :=
  lastNormNc m.block

theorem listIndex_ok {α : Type} {xs : List α} {i : Nat} {v : α}
    (h : listIndex xs i = Except.ok v) : xs.get? i = some v := by
  unfold listIndex at h
  split at h
  · injection h with h2
    subst h2
    assumption
  · exact absurd h (by simp)

theorem applyBlock_sigs (bc : BlockClass) (i o : Nat) (c : ConvCtor) (b : BlockMod)
    (h : applyBlock bc i o c = Except.ok b) :
    b.inSig = some i ∧ b.outSig = some o := by
  cases bc <;> simp [applyBlock] at h <;> subst h <;> exact ⟨rfl, rfl⟩

theorem buildBlocks_length (bc : BlockClass) (c : ConvCtor) (nn : List Nat) :
    ∀ (n cur : Nat) (bs : List BlockMod),
      buildBlocks bc c nn cur n = Except.ok bs → bs.length = n := by
  intro n
  induction n with
  | zero =>
    intro cur bs h
    simp only [buildBlocks] at h
    injection h with h2
    subst h2
    rfl
  | succ k ih =>
    intro cur bs h
    simp only [buildBlocks] at h
    split at h
    · exact absurd h (by simp)
    · rename_i nn1 hnn1
      split at h
      · exact absurd h (by simp)
      · rename_i b hb
        split at h
        · exact absurd h (by simp)
        · rename_i bs2 hbs2
          injection h with h2
          subst h2
          simp [ih nn1 bs2 hbs2]

theorem buildBlocks_succ (bc : BlockClass) (c : ConvCtor) (nn : List Nat)
    (cur n : Nat) :
    buildBlocks bc c nn cur (n + 1) =
      match listIndex nn 1 with
      | Except.error e => Except.error e
      | Except.ok nn1 =>
        match applyBlock bc cur nn1 c with
        | Except.error e => Except.error e
        | Except.ok b =>
          match buildBlocks bc c nn nn1 n with
          | Except.error e => Except.error e
          | Except.ok bs => Except.ok (b :: bs) := by
  simp only [buildBlocks]

theorem buildBlocks_sigs (bc : BlockClass) (c : ConvCtor) (nn : List Nat) :
    ∀ (n cur : Nat) (bs : List BlockMod),
      buildBlocks bc c nn cur (n + 1) = Except.ok bs →
      ∃ nn1, nn.get? 1 = some nn1 ∧
        bs.map BlockMod.inSig = some cur :: List.replicate n (some nn1) ∧
        bs.map BlockMod.outSig = List.replicate (n + 1) (some nn1) := by
  intro n
  induction n with
  | zero =>
    intro cur bs h
    rw [buildBlocks_succ] at h
    split at h
    · exact absurd h (by simp)
    · rename_i nn1 hnn1
      split at h
      · exact absurd h (by simp)
      · rename_i b hb
        simp only [buildBlocks] at h
        injection h with h2
        subst h2
        obtain ⟨hin, hout⟩ := applyBlock_sigs bc cur nn1 c b hb
        exact ⟨nn1, listIndex_ok hnn1, by simp [hin], by simp [hout]⟩
  | succ k ih =>
    intro cur bs h
    rw [buildBlocks_succ] at h
    split at h
    · exact absurd h (by simp)
    · rename_i nn1 hnn1
      split at h
      · exact absurd h (by simp)
      · rename_i b hb
        split at h
        · exact absurd h (by simp)
        · rename_i bs2 hbs2
          injection h with h2
          subst h2
          obtain ⟨nn1x, hget, hin2, hout2⟩ := ih nn1 bs2 hbs2
          have hx : nn1x = nn1 := by
            have hg2 := listIndex_ok hnn1
            rw [hg2] at hget
            injection hget with hg
            exact hg.symm
          subst hx
          obtain ⟨hin, hout⟩ := applyBlock_sigs bc cur nn1x c b hb
          refine ⟨nn1x, listIndex_ok hnn1, ?_, ?_⟩
          · simp [hin, hin2, List.replicate_succ]
          · simp [hout, hout2, List.replicate_succ]

theorem initWith_ok_cases (CONVOLUTION : ConvCtor) (nn : List Nat) (k d s : Nat)
    (N : Int) (bname : String) (m : ResNetDownMod)
    (hok : ResNetDown.initWith CONVOLUTION nn k d s N bname = Except.ok m) :
    ∃ bc nn0 conv1_output,
      getattrBlocks bname = Except.ok bc ∧
      nn.get? 0 = some nn0 ∧
      (if s > 1 then listIndex nn 0 else listIndex nn 1) = Except.ok conv1_output ∧
      m.conv_in = [ Layer.conv CONVOLUTION nn0 conv1_output k s d,
                    Layer.batchNorm conv1_output, Layer.relu true ] ∧
      ((0 < N ∧ ∃ bs, buildBlocks bc CONVOLUTION nn conv1_output N.toNat = Except.ok bs ∧
          m.blocks = some bs) ∨
       (N ≤ 0 ∧ m.blocks = none)) := by
  unfold ResNetDown.initWith at hok
  split at hok
  · exact absurd hok (by simp)
  · rename_i bc hg
    split at hok
    · exact absurd hok (by simp)
    · rename_i c1 hc1
      split at hok
      · exact absurd hok (by simp)
      · rename_i nn0 h0
        split at hok
        · rename_i hN
          split at hok
          · exact absurd hok (by simp)
          · rename_i bs hbs
            injection hok with h2
            subst h2
            exact ⟨bc, nn0, c1, hg, listIndex_ok h0, hc1, rfl,
              Or.inl ⟨hN, bs, hbs, rfl⟩⟩
        · rename_i hN
          injection hok with h2
          subst h2
          exact ⟨bc, nn0, c1, hg, listIndex_ok h0, hc1, rfl,
            Or.inr ⟨by omega, rfl⟩⟩

theorem chain_of_sig_maps (v : Nat) :
    ∀ (bs : List BlockMod) (c k : Nat),
      bs.map BlockMod.inSig = some c :: List.replicate k (some v) →
      bs.map BlockMod.outSig = List.replicate (k + 1) (some v) →
      List.Chain' (fun b b2 => b.outSig = b2.inSig) bs := by
  intro bs
  induction bs with
  | nil => intro c k h _; simp at h
  | cons b rest ih =>
    intro c k hin hout
    cases rest with
    | nil => simp
    | cons b2 rest2 =>
      cases k with
      | zero => simp at hin
      | succ k2 =>
        rw [List.replicate_succ] at hin hout
        injection hin with hb_in hrest_in
        injection hout with hb_out hrest_out
        have hchain2 := ih v k2 hrest_in hrest_out
        rw [List.chain'_cons]
        refine ⟨?_, hchain2⟩
        rw [hb_out]
        injection hrest_in with hb2_in hrest_in2
        exact hb2_in.symm

theorem last_outSig_of_map (v : Nat) :
    ∀ (bs : List BlockMod) (k : Nat),
      bs.map BlockMod.outSig = List.replicate (k + 1) (some v) →
      ∀ bl, bs.getLast? = some bl → bl.outSig = some v := by
  intro bs
  induction bs with
  | nil => intro k h; simp at h
  | cons b rest ih =>
    intro k h bl hlast
    cases rest with
    | nil =>
      simp at hlast
      subst hlast
      rw [List.replicate_succ] at h
      injection h with h1 h2
    | cons b2 rest2 =>
      rw [List.replicate_succ] at h
      injection h with h1 h2
      rw [List.getLast?_cons_cons] at hlast
      cases k with
      | zero => simp at h2
      | succ k2 => exact ih k2 h2 bl hlast

/-- Claim C8: for `ResNetDown` constructed with `N <= 0`, `self.blocks`
is `None` and `forward(x)` is exactly `conv_in(x)` (strided convolution,
BatchNorm, ReLU) with no residual blocks; for `N > 0`, `forward(x)` is
the `N` residual blocks applied in sequence to `conv_in(x)`. -/
theorem resnetdown_forward_structure (down_conv_nn : List Nat)
    (kernel_size dilation stride : Nat) (N : Int) (block : String) (m : ResNetDownMod)
    (hok : ResNetDown.init down_conv_nn kernel_size dilation stride N block = Except.ok m) :
    (∃ nn0 c1out, m.conv_in =
        [ Layer.conv ConvCtor.conv3d nn0 c1out kernel_size stride dilation,
          Layer.batchNorm c1out, Layer.relu true ]) ∧
    (N ≤ 0 → m.blocks = none ∧
      ∀ (T : Type) (env : Env T) (x : T),
        ResNetDown.forward env m x = evalSeq env m.conv_in x) ∧
    (0 < N → ∃ bs, m.blocks = some bs ∧ bs.length = N.toNat ∧
      ∀ (T : Type) (env : Env T) (x : T),
        ResNetDown.forward env m x =
          bs.foldl (fun t b => ResBlock.forward env b t) (evalSeq env m.conv_in x)) := by
  obtain ⟨bc, nn0, c1, hg, h0, hc1, hconv, hcase⟩ :=
    initWith_ok_cases _ _ _ _ _ _ _ _ hok
  refine ⟨⟨nn0, c1, hconv⟩, ?_, ?_⟩
  · intro hN
    rcases hcase with ⟨hpos, _⟩ | ⟨_, hnone⟩
    · omega
    · refine ⟨hnone, ?_⟩
      intro T env x
      simp [ResNetDown.forward, hnone]
  · intro hN
    rcases hcase with ⟨hpos, bs, hbs, hsome⟩ | ⟨hle, _⟩
    · have hlen : bs.length = N.toNat :=
        buildBlocks_length bc ConvCtor.conv3d down_conv_nn N.toNat c1 bs hbs
      refine ⟨bs, hsome, hlen, ?_⟩
      intro T env x
      have hne : bs ≠ [] := by
        intro hnil
        rw [hnil] at hlen
        simp at hlen
        omega
      have hem : bs.isEmpty = false := by
        cases bs
        · exact absurd rfl hne
        · rfl
      simp [ResNetDown.forward, hsome, hem]
    · omega

/-- Witness for C8 at `down_conv_nn = [2, 3]`, `N = 0`: `blocks` is
`None` and `forward` is just `conv_in`. -/
theorem resnetdown_forward_structure_witness :
    (ResNetDown.init [2, 3] 2 1 2 0 "ResBlock" =
      Except.ok ⟨[ Layer.conv ConvCtor.conv3d 2 2 2 2 1,
                   Layer.batchNorm 2, Layer.relu true ], none⟩) ∧
    (⟨[ Layer.conv ConvCtor.conv3d 2 2 2 2 1, Layer.batchNorm 2, Layer.relu true ],
       none⟩ : ResNetDownMod).blocks = none ∧
    ResNetDown.forward traceEnv
        ⟨[ Layer.conv ConvCtor.conv3d 2 2 2 2 1, Layer.batchNorm 2, Layer.relu true ],
          none⟩ (TTerm.input 0) =
      evalSeq traceEnv
        [ Layer.conv ConvCtor.conv3d 2 2 2 2 1, Layer.batchNorm 2, Layer.relu true ]
        (TTerm.input 0) := by
  have h := resnetdown_forward_structure [2, 3] 2 1 2 0 "ResBlock"
    ⟨[ Layer.conv ConvCtor.conv3d 2 2 2 2 1, Layer.batchNorm 2, Layer.relu true ],
      none⟩ rfl
  exact ⟨rfl, (h.2.1 (by omega)).1, (h.2.1 (by omega)).2 TTerm traceEnv (TTerm.input 0)⟩

/-- Claim C9: channel consistency of `ResNetDown` stages when `N > 0`:
the first convolution maps `down_conv_nn[0]` to `down_conv_nn[0]`
channels when `stride > 1` and to `down_conv_nn[1]` when `stride <= 1`;
the first residual block maps that output width to `down_conv_nn[1]`,
every later block maps `down_conv_nn[1]` to `down_conv_nn[1]`; hence
each stage's output width equals the next stage's input width and the
final output has `down_conv_nn[1]` channels. -/
theorem resnetdown_channel_consistency (down_conv_nn : List Nat)
    (kernel_size dilation stride : Nat) (N : Int) (block : String) (m : ResNetDownMod)
    (hok : ResNetDown.init down_conv_nn kernel_size dilation stride N block = Except.ok m)
    (hN : 0 < N) :
    ∃ nn0 nn1 c1out bs,
      down_conv_nn.get? 0 = some nn0 ∧
      down_conv_nn.get? 1 = some nn1 ∧
      convInSig m.conv_in = some (nn0, c1out) ∧
      (1 < stride → c1out = nn0) ∧
      (stride ≤ 1 → c1out = nn1) ∧
      m.blocks = some bs ∧
      bs.map BlockMod.inSig = some c1out :: List.replicate (N.toNat - 1) (some nn1) ∧
      bs.map BlockMod.outSig = List.replicate N.toNat (some nn1) ∧
      List.Chain' (fun b b2 => b.outSig = b2.inSig) bs ∧
      (∀ bl, bs.getLast? = some bl → bl.outSig = some nn1) := by
  obtain ⟨bc, nn0, c1, hg, h0, hc1, hconv, hcase⟩ :=
    initWith_ok_cases _ _ _ _ _ _ _ _ hok
  rcases hcase with ⟨hpos, bs, hbs, hsome⟩ | ⟨hle, _⟩
  · have hNt : N.toNat = (N.toNat - 1) + 1 := by omega
    rw [hNt] at hbs
    obtain ⟨nn1, hget1, hin, hout⟩ :=
      buildBlocks_sigs bc ConvCtor.conv3d down_conv_nn (N.toNat - 1) c1 bs hbs
    have hstride1 : 1 < stride → c1 = nn0 := by
      intro hs
      rw [if_pos hs] at hc1
      have h2 := listIndex_ok hc1
      rw [h0] at h2
      injection h2 with h3
      exact h3.symm
    have hstride2 : stride ≤ 1 → c1 = nn1 := by
      intro hs
      rw [if_neg (by omega)] at hc1
      have h2 := listIndex_ok hc1
      rw [hget1] at h2
      injection h2 with h3
      exact h3.symm
    refine ⟨nn0, nn1, c1, bs, h0, hget1, ?_, hstride1, hstride2, hsome, hin, ?_, ?_, ?_⟩
    · rw [hconv]
      rfl
    · rw [hNt]
      exact hout
    · exact chain_of_sig_maps nn1 bs c1 (N.toNat - 1) hin hout
    · exact last_outSig_of_map nn1 bs (N.toNat - 1) hout
  · omega

/-- Witness for C9 at `down_conv_nn = [3, 5]`, `stride = 2`, `N = 2`:
the two residual blocks chain `3 → 5` then `5 → 5`. -/
theorem resnetdown_channel_consistency_witness :
    List.Chain' (fun b b2 => BlockMod.outSig b = BlockMod.inSig b2)
      [ResBlock.init 3 5 ConvCtor.conv3d, ResBlock.init 5 5 ConvCtor.conv3d] := by
  have h := resnetdown_channel_consistency [3, 5] 2 1 2 2 "ResBlock"
    ⟨[ Layer.conv ConvCtor.conv3d 3 3 2 2 1, Layer.batchNorm 3, Layer.relu true ],
      some [ResBlock.init 3 5 ConvCtor.conv3d, ResBlock.init 5 5 ConvCtor.conv3d]⟩
    rfl (by omega)
  obtain ⟨nn0, nn1, c1out, bs, h0, h1, hsig, hs1, hs2, hsome, hin, hout, hch, hlast⟩ := h
  have hbs : [ResBlock.init 3 5 ConvCtor.conv3d, ResBlock.init 5 5 ConvCtor.conv3d] = bs := by
    injection hsome
  rw [← hbs] at hch
  exact hch
